import Mathlib

/-!
# Verification of the n8n-mcp workflow mutation / validation / autofix core

Shallow embedding of the workflow handlers of `src/index.ts`
(`updatePartialWorkflowHandler`, `validateWorkflowHandler`,
`autofixWorkflowHandler`) together with the data model of
`src/validation/workflows.ts`.

JavaScript-specific behaviour is modelled explicitly:
* an absent (`undefined`) value is `Option.none`;
* JS truthiness of strings/numbers/booleans is modelled by the
  `jsTruthy*` helpers (`""`, `0`, `undefined`, `false` are falsy);
* `a === b` on possibly-`undefined` values is `Option` equality
  (in particular `undefined === undefined` is `true`);
* `a || b` on strings is `jsOrStr`; interpolating `undefined` into a
  template string yields `"undefined"` (`jsShow`).
-/

/-! ## JS value helpers -/

/-- Truthiness of a possibly-absent JS string (`undefined` and `""` are falsy). -/
def jsTruthyStr : Option String → Bool
  | none => false
  | some s => !(s == "")

/-- Truthiness of a JS string (`""` is falsy). -/
def jsTruthyStrS (s : String) : Bool := !(s == "")

/-- Truthiness of a possibly-absent JS number (`undefined` and `0` are falsy). -/
def jsTruthyNat : Option Nat → Bool
  | none => false
  | some n => !(n == 0)

/-- Truthiness of a possibly-absent JS boolean. -/
def jsTruthyBool : Option Bool → Bool
  | some true => true
  | _ => false

/-- JS `a || b` on possibly-absent strings. -/
def jsOrStr (a b : Option String) : Option String :=
  if jsTruthyStr a then a else b

/-- Template-string interpolation of a possibly-absent string. -/
def jsShow : Option String → String
  | none => "undefined"
  | some s => s

/-- `pat` occurs at the head of `hay` (helper for `jsIncludes`). -/
def headMatches : List Char → List Char → Bool
  | _, [] => true
  | [], _ :: _ => false
  | c :: cs, d :: ds => c == d && headMatches cs ds

/-- `pat` occurs somewhere in `hay` (helper for `jsIncludes`). -/
def containsList : List Char → List Char → Bool
  | [], pat => pat.isEmpty
  | c :: rest, pat => headMatches (c :: rest) pat || containsList rest pat

/-- JS `String.prototype.includes`. -/
def jsIncludes (s pat : String) : Bool := containsList s.data pat.data

/-- JS regex `\s` (whitespace class), restricted to the ASCII range used here. -/
def jsWhitespace (c : Char) : Bool :=
  c == ' ' || c == '\t' || c == '\n' || c == '\r' || c == '\x0b' || c == '\x0c'

/-! ## The expression-format detector's regex

`JSON.stringify(node.parameters)` is matched against
`/\{\{\s*[^{=][^}]*\}\}/g`; the handler only tests whether a match exists
(`if (badExpressions)`), so we embed existence of a match.  `[^}]*` cannot
cross a `}`, hence after the single `[^{=]` character the scan is
deterministic: skip non-`}` characters, then require two `}`. -/

/-- Match `[^}]*\}\}` against the whole remaining input. -/
def matchCloseBB : List Char → Bool
  | [] => false
  | c :: rest =>
    if c == '}' then
      match rest with
      | d :: _ => d == '}'
      | [] => false
    else matchCloseBB rest

/-- Match `\s*[^{=][^}]*\}\}`, trying every split of the leading `\s*`
(whitespace is itself in `[^{=]`). -/
def matchExprBody : List Char → Bool
  | [] => false
  | c :: rest =>
    (!(c == '{') && !(c == '=') && matchCloseBB rest) ||
    (jsWhitespace c && matchExprBody rest)

/-- A match of `\{\{\s*[^{=][^}]*\}\}` starts at some position of the input. -/
def hasBadExprAux : List Char → Bool
  | [] => false
  | '{' :: '{' :: rest => matchExprBody rest || hasBadExprAux ('{' :: rest)
  | _ :: rest => hasBadExprAux rest

/-- The serialized parameters contain an expression without the `=` marker. -/
def hasBadExpression (s : String) : Bool := hasBadExprAux s.data

/-- Collapse every run of whitespace into a single `-`
(JS `replace(/\s+/g, '-')`). -/
def squashWs : List Char → List Char
  | [] => []
  | c :: rest =>
    if jsWhitespace c then
      match rest with
      | d :: _ => if jsWhitespace d then squashWs rest else '-' :: squashWs rest
      | [] => ['-']
    else c :: squashWs rest

/-- `name.toLowerCase().replace(/\s+/g, '-')` (webhook path slug). -/
def slugify (s : String) : String := ⟨squashWs (s.map Char.toLower).data⟩

/-! ## Data model (`src/validation/workflows.ts`, spec section 3) -/

/-- One endpoint of a workflow connection: target node name, target port
name, target input index. -/
structure ConnTarget where
  node : String
  type : String
  index : Nat
deriving Repr, DecidableEq

/-- `connections`: source-node-name → output-port-name → ordered groups of
connection targets.  The JS object is modelled as an association list,
preserving entry order (`Object.entries` order). -/
abbrev Connections := List (String × List (String × List (List ConnTarget)))

/-- Workflow `settings`: a free-form record, opaque to the core beyond
shallow-merge semantics; modelled as an association list. -/
abbrev Settings := List (String × String)

/-- A node's `parameters`.  The core only ever (a) serializes the record and
scans the serialization for expressions, and (b) reads `parameters.path`;
`raw` stands for `JSON.stringify(node.parameters)`. -/
structure Params where
  raw : String
  path : Option String
deriving Repr, DecidableEq

/-- One workflow node.  `id` is `Option` because the partial-update engine
compares it with `===` against a possibly-absent operation `nodeId`
(`undefined === undefined` holds).  `typeVersion` is numeric in the source;
the claims only depend on its JS truthiness and the value `1`. -/
structure Node where
  id : Option String
  name : String
  type : String
  typeVersion : Option Nat
  position : Option (List Int)
  parameters : Params
  disabled : Option Bool
deriving Repr, DecidableEq

/-- The workflow graph aggregate. -/
structure Workflow where
  id : Option String
  name : Option String
  nodes : List Node
  connections : Connections
  settings : Settings
deriving Repr, DecidableEq

/-- Partial-node patch carried by an `updateNode` operation; `none` fields
are absent from the patch (spread semantics: present fields overwrite). -/
structure NodePatch where
  id : Option String := none
  name : Option String := none
  type : Option String := none
  typeVersion : Option Nat := none
  position : Option (List Int) := none
  parameters : Option Params := none
  disabled : Option Bool := none
deriving Repr, DecidableEq

/-- Overwrite-if-present, for patch fields over plain fields. -/
def patchField {α : Type} (p : Option α) (old : α) : α :=
  match p with
  | some v => v
  | none => old

/-- Overwrite-if-present, for patch fields over optional fields. -/
def patchFieldO {α : Type} (p : Option α) (old : Option α) : Option α :=
  match p with
  | some v => some v
  | none => old

/-- `{ ...node, ...op.updates }`: shallow merge of a patch over a node. -/
def mergeNode (n : Node) (p : NodePatch) : Node :=
  { id := patchFieldO p.id n.id
    name := patchField p.name n.name
    type := patchField p.type n.type
    typeVersion := patchFieldO p.typeVersion n.typeVersion
    position := patchFieldO p.position n.position
    parameters := patchField p.parameters n.parameters
    disabled := patchFieldO p.disabled n.disabled }

/-- Set (or add) one settings key. -/
def settingsSet : Settings → String → String → Settings
  | [], k, v => [(k, v)]
  | (k', v') :: rest, k, v =>
    if k' == k then (k, v) :: rest else (k', v') :: settingsSet rest k v

/-- `{ ...workflow.settings, ...op.settings }`: shallow merge. -/
def settingsMerge (old patch : Settings) : Settings :=
  patch.foldl (fun acc kv => settingsSet acc kv.1 kv.2) old

/-! ## Diff operations (spec section 3; operation payloads are free-form in
the Zod schema, modelled as a closed sum as the spec's section 9 suggests) -/

inductive DiffOp where
  | addNode (node : Node)
  | removeNode (nodeId nodeName : Option String)
  | updateNode (nodeId nodeName : Option String) (updates : NodePatch)
  | moveNode (nodeId nodeName : Option String) (position : List Int)
  | enableNode (nodeId nodeName : Option String)
  | disableNode (nodeId nodeName : Option String)
  | addConnection (source target : String) (sourceOutput targetInput : Option String)
  | removeConnection (source target : String) (sourceOutput targetInput : Option String)
  | updateName (name : Option String)
  | updateSettings (settings : Settings)
  | addTag (tag : String)
  | removeTag (tag : String)
deriving Repr, DecidableEq

/-- The `type` discriminator string of an operation. -/
def opTypeName : DiffOp → String
  | .addNode _ => "addNode"
  | .removeNode _ _ => "removeNode"
  | .updateNode _ _ _ => "updateNode"
  | .moveNode _ _ _ => "moveNode"
  | .enableNode _ _ => "enableNode"
  | .disableNode _ _ => "disableNode"
  | .addConnection _ _ _ _ => "addConnection"
  | .removeConnection _ _ _ _ => "removeConnection"
  | .updateName _ => "updateName"
  | .updateSettings _ => "updateSettings"
  | .addTag _ => "addTag"
  | .removeTag _ => "removeTag"

/-! ## Operation engine (`updatePartialWorkflowHandler`) -/

/-- One applied-operation record, `{ index, type, nodeName?, newName? }`.
`nodeName = none` / `newName = none` model the field being absent. -/
structure AppliedRec where
  index : Nat
  type : String
  nodeName : Option String := none
  newName : Option (Option String) := none
deriving Repr, DecidableEq

/-- One failed-operation record, `{ index, type, error }`. -/
structure FailedRec where
  index : Nat
  type : String
  error : String
deriving Repr, DecidableEq

/-- The node predicate of the dual-key lookup:
`n.id === op.nodeId || n.name === op.nodeName`. -/
def nodeMatches (nodeId nodeName : Option String) (n : Node) : Bool :=
  n.id == nodeId || some n.name == nodeName

/-- `Array.prototype.findIndex`: index of the first element satisfying `p`. -/
def findNodeIdx (p : Node → Bool) : List Node → Option Nat
  | [] => none
  | n :: rest => if p n then some 0 else (findNodeIdx p rest).map (· + 1)

/-- In-place update of the element at one index (JS `arr[j] = f(arr[j])`);
out-of-range indices leave the list unchanged. -/
def modifyNodeAt (f : Node → Node) : List Node → Nat → List Node
  | [], _ => []
  | n :: rest, 0 => f n :: rest
  | n :: rest, j + 1 => n :: modifyNodeAt f rest j

/-- `workflow.nodes[j].name`, read back after a mutation. -/
def nodeNameAt (ns : List Node) (j : Nat) : Option String :=
  (ns.get? j).map Node.name

/-- The error message `Node not found: ${op.nodeId || op.nodeName}`. -/
def notFoundMsg (nodeId nodeName : Option String) : String :=
  "Node not found: " ++ jsShow (jsOrStr nodeId nodeName)

/-- One iteration of the operation `switch` of `updatePartialWorkflowHandler`
(lines 319-386 of the handler module).  `.error` models a thrown error (the
`catch` turns it into a failure record).  Note that the `addConnection` and
`removeConnection` cases of the source contain only the comments
`// Add connection logic` / `// Remove connection logic`: they set
`modified = true` and push an applied record, but perform no mutation. -/
def applyOp (w : Workflow) (i : Nat) (op : DiffOp) :
    Except String (Workflow × AppliedRec) :=
  match op with
  | .addNode node =>
    .ok ({ w with nodes := w.nodes ++ [node] },
         { index := i, type := "addNode", nodeName := some node.name })
  | .removeNode nodeId nodeName =>
    match findNodeIdx (nodeMatches nodeId nodeName) w.nodes with
    | some j =>
      .ok ({ w with nodes := w.nodes.eraseIdx j },
           { index := i, type := "removeNode" })
    | none => .error (notFoundMsg nodeId nodeName)
  | .updateNode nodeId nodeName updates =>
    match findNodeIdx (nodeMatches nodeId nodeName) w.nodes with
    | some j =>
      let ns := modifyNodeAt (fun n => mergeNode n updates) w.nodes j
      .ok ({ w with nodes := ns },
           { index := i, type := "updateNode", nodeName := nodeNameAt ns j })
    | none => .error (notFoundMsg nodeId nodeName)
  | .moveNode _ _ _ => .error ("Unknown operation type: " ++ opTypeName op)
  | .enableNode nodeId nodeName =>
    match findNodeIdx (nodeMatches nodeId nodeName) w.nodes with
    | some j =>
      let ns := modifyNodeAt (fun n => { n with disabled := some false }) w.nodes j
      .ok ({ w with nodes := ns },
           { index := i, type := "enableNode", nodeName := nodeNameAt ns j })
    | none => .error (notFoundMsg nodeId nodeName)
  | .disableNode nodeId nodeName =>
    match findNodeIdx (nodeMatches nodeId nodeName) w.nodes with
    | some j =>
      let ns := modifyNodeAt (fun n => { n with disabled := some true }) w.nodes j
      .ok ({ w with nodes := ns },
           { index := i, type := "disableNode", nodeName := nodeNameAt ns j })
    | none => .error (notFoundMsg nodeId nodeName)
  | .addConnection _ _ _ _ =>
    .ok (w, { index := i, type := "addConnection" })
  | .removeConnection _ _ _ _ =>
    .ok (w, { index := i, type := "removeConnection" })
  | .updateName name =>
    .ok ({ w with name := name },
         { index := i, type := "updateName", newName := some name })
  | .updateSettings settings =>
    .ok ({ w with settings := settingsMerge w.settings settings },
         { index := i, type := "updateSettings" })
  | .addTag _ => .error ("Unknown operation type: " ++ opTypeName op)
  | .removeTag _ => .error ("Unknown operation type: " ++ opTypeName op)

/-- State threaded through the operation loop. -/
structure EngineState where
  workflow : Workflow
  applied : List AppliedRec
  failed : List FailedRec
  modified : Bool
deriving Repr, DecidableEq

/-- The operation loop from index `i` on: every success appends an applied
record and sets `modified`; every thrown error appends a failure record and,
unless `continueOnError`, stops the loop. -/
def runOpsFrom (st : EngineState) (i : Nat) (continueOnError : Bool) :
    List DiffOp → EngineState
  | [] => st
  | op :: rest =>
    match applyOp st.workflow i op with
    | .ok (w2, r) =>
      runOpsFrom { workflow := w2, applied := st.applied ++ [r],
                   failed := st.failed, modified := true }
        (i + 1) continueOnError rest
    | .error msg =>
      let st2 : EngineState :=
        { st with failed := st.failed ++ [{ index := i, type := opTypeName op, error := msg }] }
      if continueOnError then runOpsFrom st2 (i + 1) continueOnError rest else st2

/-- The whole operation loop of `updatePartialWorkflowHandler`. -/
def runOps (w : Workflow) (ops : List DiffOp) (continueOnError : Bool) : EngineState :=
  runOpsFrom { workflow := w, applied := [], failed := [], modified := false }
    0 continueOnError ops

/-- The handler's result: the `validateOnly` branch reports
`{ validated: true, wouldApply, wouldFail, operations, failures }`, the
normal branch `{ success: true, applied, failed, operations, failures }`. -/
inductive PartialUpdateResult where
  | validated (wouldApply wouldFail : Nat)
      (operations : List AppliedRec) (failures : List FailedRec)
  | success (applied failed : Nat)
      (operations : List AppliedRec) (failures : List FailedRec)
deriving Repr, DecidableEq

/-- `updatePartialWorkflowHandler`, given the workflow fetched from the
remote API.  The second component is the list of remote write-backs
(`client.updateWorkflow` calls) the handler performs. -/
def updatePartialWorkflowHandler (w : Workflow) (ops : List DiffOp)
    (validateOnly continueOnError : Bool) : PartialUpdateResult × List Workflow :=
  let st := runOps w ops continueOnError
  if validateOnly then
    (.validated st.applied.length st.failed.length st.applied st.failed, [])
  else
    (.success st.applied.length st.failed.length st.applied st.failed,
     if st.modified then [st.workflow] else [])

/-! ## Validation engine (`validateWorkflowHandler`) -/

/-- One entry of the `errors` / `warnings` lists: `{ node?, connection?,
message }`.  The node-check entries put `node.name` (or, for the
missing-name error, `node.id`) in `node`; the connection-check entries fill
`connection` instead. -/
structure ValidationIssue where
  node : Option String := none
  connection : Option String := none
  message : String
deriving Repr, DecidableEq

/-- The `options` argument of `validate_workflow`. -/
structure ValidateOptions where
  validateNodes : Option Bool := none
  validateConnections : Option Bool := none
  validateExpressions : Option Bool := none
  profile : Option String := none
deriving Repr, DecidableEq

/-- `options.x !== false`: a check runs unless explicitly disabled. -/
def optionNotFalse : Option Bool → Bool
  | some false => false
  | _ => true

/-- Per-node completeness errors, in source order (id, name, type). -/
def nodeCheckErrors (n : Node) : List ValidationIssue :=
  (if !(jsTruthyStr n.id) then
    [{ node := some n.name, message := "Missing node ID" }] else []) ++
  (if !(jsTruthyStrS n.name) then
    [{ node := n.id, message := "Missing node name" }] else []) ++
  (if !(jsTruthyStrS n.type) then
    [{ node := some n.name, message := "Missing node type" }] else [])

/-- Per-node position warning: `!node.position || node.position.length !== 2`
(an array is always truthy, so only absence or wrong arity warns). -/
def nodeCheckWarnings (n : Node) : List ValidationIssue :=
  if (match n.position with
      | none => true
      | some l => !(l.length == 2)) then
    [{ node := some n.name, message := "Invalid or missing position" }]
  else []

/-- Connection errors for one source entry: the source-name check first,
then every nested target, in order. -/
def connErrorsForSource (names : List String) (src : String)
    (outs : List (String × List (List ConnTarget))) : List ValidationIssue :=
  (if names.contains src then []
   else [{ connection := some src, message := "Source node not found: " ++ src }]) ++
  List.flatten (outs.map (fun po =>
    List.flatten (po.2.map (fun grp =>
      grp.filterMap (fun t =>
        if names.contains t.node then none
        else some { connection := some (src ++ " -> " ++ t.node),
                    message := "Target node not found: " ++ t.node })))))

/-- The connection check (`Object.entries(workflow.connections)` loop). -/
def connectionErrors (names : List String) : Connections → List ValidationIssue
  | [] => []
  | (src, outs) :: rest =>
    connErrorsForSource names src outs ++ connectionErrors names rest

/-- The trigger-node test of the validation summary:
`n.type.includes('Trigger') || n.type.includes('Webhook')`. -/
def validateTriggerCheck (n : Node) : Bool :=
  jsIncludes n.type "Trigger" || jsIncludes n.type "Webhook"

/-- The `summary` object of the validation result. -/
structure ValidationSummary where
  totalNodes : Nat
  enabledNodes : Nat
  triggerNodes : Nat
  errorCount : Nat
  warningCount : Nat
deriving Repr, DecidableEq

/-- The result of `validate_workflow`. -/
structure ValidateResult where
  valid : Bool
  summary : ValidationSummary
  errors : List ValidationIssue
  warnings : List ValidationIssue
deriving Repr, DecidableEq

/-- `validateWorkflowHandler`, given the fetched workflow.  The expression
check of the source scans each node's serialized parameters but pushes no
error or warning, so it contributes nothing to the result.  The `profile`
option is accepted and never read. -/
def validateWorkflowHandler (w : Workflow) (opts : ValidateOptions) : ValidateResult :=
  let nodeErrs :=
    if optionNotFalse opts.validateNodes then
      List.flatten (w.nodes.map nodeCheckErrors)
    else []
  let warnings :=
    if optionNotFalse opts.validateNodes then
      List.flatten (w.nodes.map nodeCheckWarnings)
    else []
  let connErrs :=
    if optionNotFalse opts.validateConnections then
      connectionErrors (w.nodes.map Node.name) w.connections
    else []
  let errors := nodeErrs ++ connErrs
  { valid := errors.length == 0
    summary :=
      { totalNodes := w.nodes.length
        enabledNodes := (w.nodes.filter (fun n => !(jsTruthyBool n.disabled))).length
        triggerNodes := (w.nodes.filter validateTriggerCheck).length
        errorCount := errors.length
        warningCount := warnings.length }
    errors := errors
    warnings := warnings }

/-! ## Autofix engine (`autofixWorkflowHandler`) -/

/-- One detected fix: `{ node, type, issue, fix, confidence }`. -/
structure FixItem where
  node : String
  type : String
  issue : String
  fix : String
  confidence : String
deriving Repr, DecidableEq

/-- Detector 1: expression missing the `=` marker. -/
def exprFixes (ns : List Node) : List FixItem :=
  ns.filterMap (fun n =>
    if hasBadExpression n.parameters.raw then
      some { node := n.name, type := "expression-format",
             issue := "Expression missing = prefix",
             fix := "Add = prefix to expression", confidence := "high" }
    else none)

/-- Detector 2: missing (or JS-falsy) `typeVersion`. -/
def typeVersionFixes (ns : List Node) : List FixItem :=
  ns.filterMap (fun n =>
    if !(jsTruthyNat n.typeVersion) then
      some { node := n.name, type := "typeversion-missing",
             issue := "Node missing typeVersion",
             fix := "Add typeVersion: 1", confidence := "high" }
    else none)

/-- Detector 3: webhook node missing `parameters.path`. -/
def webhookFixes (ns : List Node) : List FixItem :=
  ns.filterMap (fun n =>
    if jsIncludes n.type "Webhook" && !(jsTruthyStr n.parameters.path) then
      some { node := n.name, type := "webhook-missing-path",
             issue := "Webhook node missing path",
             fix := "Add path: \"" ++ slugify n.name ++ "\"",
             confidence := "medium" }
    else none)

/-- All three detectors, in source order. -/
def detectFixes (w : Workflow) : List FixItem :=
  exprFixes w.nodes ++ typeVersionFixes w.nodes ++ webhookFixes w.nodes

/-- `node.typeVersion = 1`. -/
def setTV (n : Node) : Node := { n with typeVersion := some 1 }

/-- One iteration of the fix-application loop: find the first node whose
name equals `fix.node`; if found and the fix type is `typeversion-missing`,
set its `typeVersion` to 1 and mark the graph modified; every other fix type
falls through the `switch` without mutating anything. -/
def applyFixStep (s : List Node × Bool) (f : FixItem) : List Node × Bool :=
  match findNodeIdx (fun n => n.name == f.node) s.1 with
  | some j =>
    if f.type == "typeversion-missing" then (modifyNodeAt setTV s.1 j, true)
    else s
  | none => s

/-- The counts and list returned by `autofix_workflow`. -/
structure AutofixResult where
  fixesFound : Nat
  fixesApplied : Nat
  fixes : List FixItem
deriving Repr, DecidableEq

/-- `autofixWorkflowHandler`, given the fetched workflow.  Returns the
report, the final in-memory workflow, and the list of remote write-backs
(`client.updateWorkflow` calls).  The source also accepts `fixTypes`,
`confidenceThreshold` and `maxFixes` arguments but never reads them, so they
are omitted here. -/
def autofixWorkflowHandler (w : Workflow) (applyFixes : Bool) :
    AutofixResult × Workflow × List Workflow :=
  let fixes := detectFixes w
  let applyResult :=
    if applyFixes then fixes.foldl applyFixStep (w.nodes, false)
    else (w.nodes, false)
  let w2 : Workflow := { w with nodes := applyResult.1 }
  (({ fixesFound := fixes.length
      fixesApplied := if applyFixes then fixes.length else 0
      fixes := fixes } : AutofixResult),
   w2,
   if applyResult.2 then [w2] else [])

/-! ## Concrete fixture graphs used by counterexamples and witnesses -/

/-- Parameters with no expression and no `path` (serialization `"{}"`). -/
def pNoExpr : Params := { raw := "\x7b\x7d", path := none }

/-- The spec's example node `{id:"a", name:"Start"}`. -/
def startNode : Node :=
  { id := some "a", name := "Start", type := "n8n-nodes-base.start",
    typeVersion := some 1, position := some [0, 0], parameters := pNoExpr,
    disabled := none }

/-- The spec's example graph: a single node named `Start`. -/
def c4Graph : Workflow :=
  { id := some "wf", name := some "W", nodes := [startNode],
    connections := [], settings := [] }

/-- A node whose `name` will match an operation's `nodeName`. -/
def tgtNode : Node := { startNode with id := some "a", name := "Target" }

/-- A node whose `id` will match an operation's `nodeId`. -/
def otherNode : Node := { startNode with id := some "b", name := "Other" }

/-- Name-matching node first, id-matching node second. -/
def c2Graph : Workflow := { c4Graph with id := some "wf2", nodes := [tgtNode, otherNode] }

/-- A node whose `type` contains the schedule marker but neither `Trigger`
nor `Webhook`. -/
def scheduleNode : Node := { startNode with id := some "s", name := "Sched", type := "Schedule" }

/-- Graph with only the schedule-marker node. -/
def c6Graph : Workflow := { c4Graph with id := some "wf6", nodes := [scheduleNode] }

/-- A node with no `id` field at all. -/
def idlessNode : Node := { startNode with id := none, name := "A" }

/-- A node actually named `B`, with an id. -/
def namedB : Node := { startNode with id := some "b", name := "B" }

/-- The id-less node sits before the node named `B`. -/
def c9Graph : Workflow := { c4Graph with id := some "wf9", nodes := [idlessNode, namedB] }

/-- A node missing `typeVersion`. -/
def noTvNode : Node := { startNode with id := some "c", name := "C", typeVersion := none }

/-- Graph whose only autofix finding is the missing `typeVersion` of `C`. -/
def c8Graph : Workflow := { c4Graph with id := some "wf8", nodes := [noTvNode] }

/-- An expression-format finding, as the detector would report it. -/
def exprFixItem : FixItem :=
  { node := "X", type := "expression-format",
    issue := "Expression missing = prefix",
    fix := "Add = prefix to expression", confidence := "high" }

/-- The record the typeVersion detector reports for a node named `nm`. -/
def mkTvFix (nm : String) : FixItem :=
  { node := nm, type := "typeversion-missing",
    issue := "Node missing typeVersion",
    fix := "Add typeVersion: 1", confidence := "high" }

/-- Graph whose only detected defect is the missing `typeVersion` of its
second node (`C`); node names are pairwise distinct. -/
def c7Graph : Workflow :=
  { c4Graph with id := some "wf7", nodes := [startNode, noTvNode] }

/-! ## Helper lemmas about the engine -/

/-- `findNodeIdx` returns the first index satisfying the predicate. -/
theorem findNodeIdx_spec (p : Node → Bool) :
    ∀ (l : List Node) (j : Nat), findNodeIdx p l = some j →
      (∀ n, l.get? j = some n → p n = true) ∧
      (∀ k, k < j → ∀ n, l.get? k = some n → p n = false) := by
  intro l
  induction l with
  | nil => intro j h; simp [findNodeIdx] at h
  | cons a rest ih =>
    intro j h
    by_cases hp : p a = true
    · rw [findNodeIdx, if_pos hp] at h
      obtain rfl : (0 : Nat) = j := by simpa using h
      refine ⟨fun n hn => ?_, fun k hk => by omega⟩
      simp only [List.get?_cons_zero, Option.some.injEq] at hn
      exact hn ▸ hp
    · rw [findNodeIdx, if_neg hp] at h
      cases hr : findNodeIdx p rest with
      | none => rw [hr] at h; simp at h
      | some j' =>
        rw [hr] at h
        obtain rfl : j' + 1 = j := by simpa using h
        obtain ⟨h1, h2⟩ := ih j' hr
        constructor
        · intro n hn
          exact h1 n (by simpa using hn)
        · intro k hk n hn
          cases k with
          | zero =>
            simp only [List.get?_cons_zero, Option.some.injEq] at hn
            subst hn
            simpa using hp
          | succ k' =>
            exact h2 k' (by omega) n (by simpa using hn)

/-- Under `continueOnError`, every operation lands in exactly one of the
two result lists. -/
theorem runOpsFrom_continue_counts (ops : List DiffOp) : ∀ (st : EngineState) (i : Nat),
    (runOpsFrom st i true ops).applied.length + (runOpsFrom st i true ops).failed.length
      = st.applied.length + st.failed.length + ops.length := by
  induction ops with
  | nil => intro st i; simp [runOpsFrom]
  | cons op rest ih =>
    intro st i
    simp only [runOpsFrom]
    split
    · rw [ih]
      simp only [List.length_append, List.length_cons, List.length_nil]
      omega
    · simp only [if_true]
      rw [ih]
      simp only [List.length_append, List.length_cons, List.length_nil]
      omega

/-! ## Claim theorems C1 - C6, C9, C10 -/

/-- C1 (code evidence): the `addConnection` / `removeConnection` cases of
`updatePartialWorkflowHandler` are stubs.  They leave the whole workflow —
in particular its `connections` structure — unchanged, yet report the
operation as applied (and mark the graph modified, triggering a write-back
of the unchanged graph). -/
theorem connection_ops_do_not_mutate (w : Workflow) (i : Nat)
    (s t : String) (so ti : Option String) :
    applyOp w i (.addConnection s t so ti)
      = .ok (w, { index := i, type := "addConnection" }) ∧
    applyOp w i (.removeConnection s t so ti)
      = .ok (w, { index := i, type := "removeConnection" }) ∧
    (runOps w [.addConnection s t so ti] false).workflow.connections = w.connections ∧
    (runOps w [.addConnection s t so ti] false).applied
      = [{ index := 0, type := "addConnection" }] ∧
    (runOps w [.removeConnection s t so ti] false).workflow.connections = w.connections ∧
    (runOps w [.removeConnection s t so ti] false).applied
      = [{ index := 0, type := "removeConnection" }] ∧
    (runOps w [.addConnection s t so ti] false).modified = true :=
  ⟨rfl, rfl, rfl, rfl, rfl, rfl, rfl⟩

/-- C2 (counterexample): with `nodeId = "b"` and `nodeName = "Target"`, a
node matching by id exists (`otherNode`), yet `removeNode` deletes
`tgtNode`, the earlier node matching only by name: id does not take
precedence, sequence order does. -/
theorem removeNode_id_precedence_counterexample :
    otherNode.id = some "b" ∧
    otherNode ∈ c2Graph.nodes ∧
    applyOp c2Graph 0 (.removeNode (some "b") (some "Target"))
      = .ok ({ c2Graph with nodes := [otherNode] },
             { index := 0, type := "removeNode" }) :=
  ⟨rfl, by decide, rfl⟩

/-- C2 (amended): a `removeNode` / `updateNode` / `enableNode` /
`disableNode` operation targets the first node in sequence order whose `id`
equals the operation's `nodeId` or whose `name` equals its `nodeName`; no
earlier node matches either key.  (Id precedence over a later name-match
does not hold; see the counterexample.) -/
theorem dual_key_lookup_first_match (w : Workflow) (i : Nat)
    (nid nname : Option String) (j : Nat)
    (h : findNodeIdx (nodeMatches nid nname) w.nodes = some j) :
    (∀ n, w.nodes.get? j = some n → nodeMatches nid nname n = true) ∧
    (∀ k, k < j → ∀ n, w.nodes.get? k = some n → nodeMatches nid nname n = false) ∧
    applyOp w i (.removeNode nid nname)
      = .ok ({ w with nodes := w.nodes.eraseIdx j },
             { index := i, type := "removeNode" }) ∧
    (∀ p : NodePatch, applyOp w i (.updateNode nid nname p)
      = .ok ({ w with nodes := modifyNodeAt (fun n => mergeNode n p) w.nodes j },
             { index := i, type := "updateNode",
               nodeName := nodeNameAt (modifyNodeAt (fun n => mergeNode n p) w.nodes j) j })) ∧
    applyOp w i (.enableNode nid nname)
      = .ok ({ w with nodes := modifyNodeAt (fun n => { n with disabled := some false }) w.nodes j },
             { index := i, type := "enableNode",
               nodeName := nodeNameAt (modifyNodeAt (fun n => { n with disabled := some false }) w.nodes j) j }) ∧
    applyOp w i (.disableNode nid nname)
      = .ok ({ w with nodes := modifyNodeAt (fun n => { n with disabled := some true }) w.nodes j },
             { index := i, type := "disableNode",
               nodeName := nodeNameAt (modifyNodeAt (fun n => { n with disabled := some true }) w.nodes j) j }) := by
  obtain ⟨h1, h2⟩ := findNodeIdx_spec _ w.nodes j h
  refine ⟨h1, h2, ?_, fun p => ?_, ?_, ?_⟩ <;> simp [applyOp, h]

/-- C2 (witness): the amended lookup rule at the counterexample graph. -/
theorem dual_key_lookup_first_match_witness :
    findNodeIdx (nodeMatches (some "b") (some "Target")) c2Graph.nodes = some 0 ∧
    nodeMatches (some "b") (some "Target") tgtNode = true ∧
    applyOp c2Graph 0 (.removeNode (some "b") (some "Target"))
      = .ok ({ c2Graph with nodes := c2Graph.nodes.eraseIdx 0 },
             { index := 0, type := "removeNode" }) := by
  have h : findNodeIdx (nodeMatches (some "b") (some "Target")) c2Graph.nodes = some 0 := by
    decide
  have H := dual_key_lookup_first_match c2Graph 0 (some "b") (some "Target") 0 h
  exact ⟨h, H.1 tgtNode rfl, H.2.2.1⟩

/-- C3: with `validateOnly = true` the handler performs no remote write and
returns the dry-run report (`wouldApply` / `wouldFail` counts and the
per-operation records), for every graph, operation list and failure
policy. -/
theorem validateOnly_no_remote_writes (w : Workflow) (ops : List DiffOp) (c : Bool) :
    (updatePartialWorkflowHandler w ops true c).2 = [] ∧
    (updatePartialWorkflowHandler w ops true c).1 =
      .validated (runOps w ops c).applied.length (runOps w ops c).failed.length
        (runOps w ops c).applied (runOps w ops c).failed :=
  ⟨rfl, rfl⟩

/-- C4: on the spec's one-node graph, `removeNode` of a missing name under
the atomic policy yields `applied = []`, one failure record
`{index: 0, error: "Node not found: Missing"}`, and no remote write. -/
theorem atomic_missing_node_example :
    updatePartialWorkflowHandler c4Graph [.removeNode none (some "Missing")] false false
      = (.success 0 1 []
          [{ index := 0, type := "removeNode", error := "Node not found: Missing" }],
         []) := rfl

/-- C5: under `continueOnError = true`, every operation is attempted and
lands in exactly one of the two lists:
`len(applied) + len(failed) = len(operations)`. -/
theorem continueOnError_partition (w : Workflow) (ops : List DiffOp) :
    (runOps w ops true).applied.length + (runOps w ops true).failed.length
      = ops.length := by
  have h := runOpsFrom_continue_counts ops
    { workflow := w, applied := [], failed := [], modified := false } 0
  simpa [runOps] using h

/-- C6 (counterexample): a node whose `type` contains the schedule marker
(but neither `Trigger` nor `Webhook`) is not counted as a trigger node in
the `validate_workflow` summary. -/
theorem schedule_marker_not_counted :
    jsIncludes scheduleNode.type "Schedule" = true ∧
    (validateWorkflowHandler c6Graph {}).summary.triggerNodes = 0 :=
  ⟨rfl, rfl⟩

/-- C6 (amended): the `validate_workflow` summary counts a node as a
trigger iff its `type` contains `Trigger` or `Webhook`; the schedule marker
is not part of the classification. -/
theorem trigger_classification_amended (w : Workflow) (opts : ValidateOptions) :
    (validateWorkflowHandler w opts).summary.triggerNodes
      = (w.nodes.filter validateTriggerCheck).length ∧
    (∀ n : Node, validateTriggerCheck n = true ↔
      (jsIncludes n.type "Trigger" = true ∨ jsIncludes n.type "Webhook" = true)) ∧
    (∀ n : Node, jsIncludes n.type "Trigger" = false →
      jsIncludes n.type "Webhook" = false → validateTriggerCheck n = false) := by
  refine ⟨rfl, fun n => ?_, fun n h1 h2 => ?_⟩
  · simp [validateTriggerCheck]
  · simp [validateTriggerCheck, h1, h2]

/-- C6 (witness): the amended classification at the schedule-marker node. -/
theorem trigger_classification_amended_witness :
    (validateWorkflowHandler c6Graph {}).summary.triggerNodes
      = (c6Graph.nodes.filter validateTriggerCheck).length ∧
    validateTriggerCheck scheduleNode = false := by
  have H := trigger_classification_amended c6Graph {}
  exact ⟨H.1, H.2.2 scheduleNode (by decide) (by decide)⟩

/-- C9: when an operation supplies only a `nodeName`, a node whose own `id`
is absent matches the lookup (`undefined === undefined`), so the first
id-less node is deleted even though its name differs from the supplied
name. -/
theorem idless_node_matches_absent_id (w : Workflow) (i : Nat) (m : String)
    (n0 : Node) (rest : List Node)
    (h1 : w.nodes = n0 :: rest) (h2 : n0.id = none) (h3 : n0.name ≠ m) :
    nodeMatches none (some m) n0 = true ∧
    applyOp w i (.removeNode none (some m))
      = .ok ({ w with nodes := rest }, { index := i, type := "removeNode" }) := by
  have hm : nodeMatches none (some m) n0 = true := by
    simp [nodeMatches, h2]
  refine ⟨hm, ?_⟩
  simp [applyOp, h1, findNodeIdx, hm]

/-- C9 (witness): in a graph `[A (no id), B]`, `removeNode` with
`nodeName = "B"` deletes the id-less node `A`, not `B`. -/
theorem idless_node_matches_absent_id_witness :
    nodeMatches none (some "B") idlessNode = true ∧
    applyOp c9Graph 0 (.removeNode none (some "B"))
      = .ok ({ c9Graph with nodes := [namedB] }, { index := 0, type := "removeNode" }) :=
  idless_node_matches_absent_id c9Graph 0 "B" idlessNode [namedB] rfl rfl (by decide)

/-- C10: `moveNode`, `addTag` and `removeTag` operations always fall
through to the default branch: they fail with
`Unknown operation type: <type>` and leave the workflow untouched. -/
theorem unsupported_ops_unknown_type (w : Workflow) (i : Nat) (c : Bool)
    (nid nname : Option String) (pos : List Int) (tag : String) :
    applyOp w i (.moveNode nid nname pos)
      = .error "Unknown operation type: moveNode" ∧
    applyOp w i (.addTag tag) = .error "Unknown operation type: addTag" ∧
    applyOp w i (.removeTag tag) = .error "Unknown operation type: removeTag" ∧
    runOps w [.moveNode nid nname pos] c =
      { workflow := w, applied := [],
        failed := [{ index := 0, type := "moveNode",
                     error := "Unknown operation type: moveNode" }],
        modified := false } ∧
    runOps w [.addTag tag] c =
      { workflow := w, applied := [],
        failed := [{ index := 0, type := "addTag",
                     error := "Unknown operation type: addTag" }],
        modified := false } ∧
    runOps w [.removeTag tag] c =
      { workflow := w, applied := [],
        failed := [{ index := 0, type := "removeTag",
                     error := "Unknown operation type: removeTag" }],
        modified := false } := by
  refine ⟨rfl, rfl, rfl, ?_, ?_, ?_⟩ <;> cases c <;> rfl

/-! ## Helper lemmas about the autofix apply loop -/

/-- A fix-application step keeps the modified flag once set. -/
theorem applyFixStep_snd_true (s : List Node × Bool) (f : FixItem)
    (h : s.2 = true) : (applyFixStep s f).2 = true := by
  unfold applyFixStep
  cases hf : findNodeIdx (fun n => n.name == f.node) s.1 with
  | none => exact h
  | some j =>
    by_cases ht : f.type = "typeversion-missing" <;> simp [ht, h]

/-- The whole fix-application loop keeps the modified flag once set. -/
theorem foldl_applyFixStep_snd_true (fs : List FixItem) :
    ∀ s : List Node × Bool, s.2 = true → (fs.foldl applyFixStep s).2 = true := by
  induction fs with
  | nil => intro s h; simpa using h
  | cons f rest ih => intro s h; exact ih _ (applyFixStep_snd_true s f h)

/-- If one step set the modified flag, the fix had type
`typeversion-missing`. -/
theorem applyFixStep_snd_cases (s : List Node × Bool) (f : FixItem)
    (h : (applyFixStep s f).2 = true) :
    s.2 = true ∨ f.type = "typeversion-missing" := by
  unfold applyFixStep at h
  cases hf : findNodeIdx (fun n => n.name == f.node) s.1 with
  | none => rw [hf] at h; exact Or.inl h
  | some j =>
    rw [hf] at h
    by_cases ht : f.type = "typeversion-missing"
    · exact Or.inr ht
    · simp only [ht, if_neg, beq_iff_eq] at h
      exact Or.inl h

/-- If the loop set the modified flag, some fix had type
`typeversion-missing`. -/
theorem foldl_applyFixStep_snd_tv (fs : List FixItem) :
    ∀ s : List Node × Bool, (fs.foldl applyFixStep s).2 = true →
      s.2 = true ∨ ∃ f ∈ fs, f.type = "typeversion-missing" := by
  induction fs with
  | nil => intro s h; exact Or.inl (by simpa using h)
  | cons f rest ih =>
    intro s h
    rcases ih (applyFixStep s f) h with h1 | h2
    · rcases applyFixStep_snd_cases s f h1 with h3 | h3
      · exact Or.inl h3
      · exact Or.inr ⟨f, List.mem_cons_self f rest, h3⟩
    · obtain ⟨g, hg, hgt⟩ := h2
      exact Or.inr ⟨g, List.mem_cons_of_mem _ hg, hgt⟩

/-- A fix whose type is not `typeversion-missing` falls through the
`switch` without any effect. -/
theorem applyFixStep_non_tv (s : List Node × Bool) (f : FixItem)
    (h : f.type ≠ "typeversion-missing") : applyFixStep s f = s := by
  unfold applyFixStep
  cases hf : findNodeIdx (fun n => n.name == f.node) s.1 with
  | none => rfl
  | some j => simp [h]

/-- Pointwise description of an in-place node update. -/
theorem modifyNodeAt_get? (f : Node → Node) :
    ∀ (l : List Node) (j k : Nat),
      (modifyNodeAt f l j).get? k
        = if k = j then (l.get? j).map f else l.get? k := by
  intro l
  induction l with
  | nil => intro j k; simp [modifyNodeAt]
  | cons a rest ih =>
    intro j k
    cases j with
    | zero =>
      cases k with
      | zero => simp [modifyNodeAt]
      | succ k' => simp [modifyNodeAt]
    | succ j' =>
      cases k with
      | zero => simp [modifyNodeAt]
      | succ k' =>
        simp only [modifyNodeAt, List.get?_cons_succ, ih j' k', Nat.succ.injEq]

/-- One step changes each position either not at all or by `setTV`. -/
theorem applyFixStep_fst_get? (s : List Node × Bool) (f : FixItem) (k : Nat) :
    (applyFixStep s f).1.get? k = s.1.get? k ∨
    (applyFixStep s f).1.get? k = (s.1.get? k).map setTV := by
  unfold applyFixStep
  cases hf : findNodeIdx (fun n => n.name == f.node) s.1 with
  | none => exact Or.inl rfl
  | some j =>
    by_cases ht : f.type = "typeversion-missing"
    · simp only [ht, if_pos, beq_self_eq_true, modifyNodeAt_get?]
      by_cases hk : k = j
      · subst hk; exact Or.inr (by simp)
      · exact Or.inl (by simp [hk])
    · simp only [ht, if_neg, beq_iff_eq]
      exact Or.inl rfl

/-- The whole loop changes each position either not at all or by `setTV`. -/
theorem foldl_applyFixStep_fst_get? (fs : List FixItem) :
    ∀ (s : List Node × Bool) (k : Nat),
      (fs.foldl applyFixStep s).1.get? k = s.1.get? k ∨
      (fs.foldl applyFixStep s).1.get? k = (s.1.get? k).map setTV := by
  induction fs with
  | nil => intro s k; exact Or.inl rfl
  | cons f rest ih =>
    intro s k
    rcases ih (applyFixStep s f) k with h | h <;>
      rcases applyFixStep_fst_get? s f k with h2 | h2
    · exact Or.inl (by rw [List.foldl_cons, h, h2])
    · exact Or.inr (by rw [List.foldl_cons, h, h2])
    · exact Or.inr (by rw [List.foldl_cons, h, h2])
    · refine Or.inr ?_
      rw [List.foldl_cons, h, h2]
      cases s.1.get? k <;> simp [setTV]

/-- The loop never changes the node names. -/
theorem foldl_applyFixStep_map_name (fs : List FixItem) (s : List Node × Bool) :
    ((fs.foldl applyFixStep s).1).map Node.name = (s.1).map Node.name := by
  refine List.ext (fun k => ?_)
  rw [List.get?_map, List.get?_map]
  rcases foldl_applyFixStep_fst_get? fs s k with h | h
  · rw [h]
  · rw [h]; cases s.1.get? k <;> simp [setTV]

/-- With pairwise-distinct node names, the by-name lookup finds exactly the
index the name sits at. -/
theorem findNodeIdx_of_names_nodup :
    ∀ (l : List Node) (nm : String) (k : Nat),
      (l.map Node.name).Nodup →
      (l.map Node.name).get? k = some nm →
      findNodeIdx (fun x => x.name == nm) l = some k := by
  intro l
  induction l with
  | nil => intro nm k _ h; simp at h
  | cons a rest ih =>
    intro nm k hnd hk
    rw [List.map_cons] at hnd hk
    by_cases ha : a.name = nm
    · cases k with
      | zero => simp [findNodeIdx, ha]
      | succ k' =>
        exfalso
        have hmem : nm ∈ rest.map Node.name := List.get?_mem (by simpa using hk)
        exact (List.nodup_cons.mp hnd).1 (ha ▸ hmem)
    · cases k with
      | zero =>
        exfalso
        exact ha (by simpa using hk)
      | succ k' =>
        have h := ih nm k' (List.nodup_cons.mp hnd).2 (by simpa using hk)
        simp [findNodeIdx, ha, h]

/-- A found `typeversion-missing` fix rewrites the node at the found index
and sets the modified flag. -/
theorem applyFixStep_found_tv (s : List Node × Bool) (f : FixItem) (j : Nat)
    (hf : findNodeIdx (fun n => n.name == f.node) s.1 = some j)
    (ht : f.type = "typeversion-missing") :
    applyFixStep s f = (modifyNodeAt setTV s.1 j, true) := by
  unfold applyFixStep
  rw [hf]
  simp [ht]

/-- If the fix list contains a `typeversion-missing` fix for the (unique)
name of the node at index `k`, the loop ends with `typeVersion = 1` at
index `k` and the modified flag set. -/
theorem fold_sets_tv (ns : List Node) (fs : List FixItem) (k : Nat) (n : Node)
    (f0 : FixItem)
    (hnd : (ns.map Node.name).Nodup) (hget : ns.get? k = some n)
    (hf0 : f0 ∈ fs) (hty : f0.type = "typeversion-missing")
    (hnm : f0.node = n.name) :
    (∃ n', (fs.foldl applyFixStep (ns, false)).1.get? k = some n' ∧
      n'.typeVersion = some 1) ∧
    (fs.foldl applyFixStep (ns, false)).2 = true := by
  obtain ⟨l1, l2, rfl⟩ := List.append_of_mem hf0
  rw [List.foldl_append, List.foldl_cons]
  have hnames : ((l1.foldl applyFixStep (ns, false)).1).map Node.name
      = ns.map Node.name := foldl_applyFixStep_map_name l1 _
  have hkname : (((l1.foldl applyFixStep (ns, false)).1).map Node.name).get? k
      = some n.name := by
    rw [hnames, List.get?_map, hget]; rfl
  have hfind : findNodeIdx (fun x => x.name == f0.node)
      (l1.foldl applyFixStep (ns, false)).1 = some k := by
    rw [hnm]
    exact findNodeIdx_of_names_nodup _ n.name k (hnames ▸ hnd) hkname
  obtain ⟨n1, hn1⟩ : ∃ n1, (l1.foldl applyFixStep (ns, false)).1.get? k = some n1 := by
    rw [List.get?_map] at hkname
    cases h : (l1.foldl applyFixStep (ns, false)).1.get? k with
    | none => rw [h] at hkname; simp at hkname
    | some x => exact ⟨x, rfl⟩
  have hstep : applyFixStep (l1.foldl applyFixStep (ns, false)) f0
      = (modifyNodeAt setTV (l1.foldl applyFixStep (ns, false)).1 k, true) :=
    applyFixStep_found_tv _ f0 k hfind hty
  rw [hstep]
  constructor
  · have hmid : (modifyNodeAt setTV (l1.foldl applyFixStep (ns, false)).1 k).get? k
        = some (setTV n1) := by
      rw [modifyNodeAt_get?, if_pos rfl, hn1]; rfl
    rcases foldl_applyFixStep_fst_get? l2
        (modifyNodeAt setTV (l1.foldl applyFixStep (ns, false)).1 k, true) k with h | h
    · exact ⟨setTV n1, by rw [h]; exact hmid, rfl⟩
    · refine ⟨setTV (setTV n1), ?_, rfl⟩
      rw [h]
      simp only [hmid, Option.map_some']
  · exact foldl_applyFixStep_snd_true l2 _ rfl

/-- When all expression / webhook findings are absent, the detected fixes
are exactly the typeVersion findings. -/
theorem detectFixes_eq_tv (w : Workflow)
    (hExpr : exprFixes w.nodes = []) (hWeb : webhookFixes w.nodes = []) :
    detectFixes w = typeVersionFixes w.nodes := by
  simp [detectFixes, hExpr, hWeb]

/-- The fold over the detected fixes repairs a flagged node (some index
with falsy `typeVersion`) and reports the graph as modified. -/
theorem fold_sets_tv_of_flagged (w : Workflow) (k : Nat) (n : Node)
    (hnd : (w.nodes.map Node.name).Nodup)
    (hExpr : exprFixes w.nodes = []) (hWeb : webhookFixes w.nodes = [])
    (hget : w.nodes.get? k = some n)
    (hflag : jsTruthyNat n.typeVersion = false) :
    (∃ n', ((detectFixes w).foldl applyFixStep (w.nodes, false)).1.get? k = some n' ∧
      n'.typeVersion = some 1) ∧
    ((detectFixes w).foldl applyFixStep (w.nodes, false)).2 = true := by
  have hmem : mkTvFix n.name ∈ detectFixes w := by
    rw [detectFixes_eq_tv w hExpr hWeb]
    exact List.mem_filterMap.mpr ⟨n, List.get?_mem hget, by simp [hflag, mkTvFix]⟩
  exact fold_sets_tv w.nodes (detectFixes w) k n _ hnd hget hmem rfl rfl

/-- Exact final value at a flagged index: the node with `typeVersion`
set to 1. -/
theorem fold_final_flagged (w : Workflow) (k : Nat) (n : Node)
    (hnd : (w.nodes.map Node.name).Nodup)
    (hExpr : exprFixes w.nodes = []) (hWeb : webhookFixes w.nodes = [])
    (hget : w.nodes.get? k = some n)
    (hflag : jsTruthyNat n.typeVersion = false) :
    ((detectFixes w).foldl applyFixStep (w.nodes, false)).1.get? k
      = some (setTV n) := by
  obtain ⟨⟨n', hn', htv⟩, _⟩ := fold_sets_tv_of_flagged w k n hnd hExpr hWeb hget hflag
  rcases foldl_applyFixStep_fst_get? (detectFixes w) (w.nodes, false) k with h | h
  · exfalso
    have hn : w.nodes.get? k = some n' := by
      have h' : ((detectFixes w).foldl applyFixStep (w.nodes, false)).1.get? k
          = w.nodes.get? k := h
      rw [← h', hn']
    rw [hget] at hn
    obtain rfl : n = n' := by simpa using hn
    rw [htv] at hflag
    simp [jsTruthyNat] at hflag
  · rw [h, hget]
    obtain rfl : n' = setTV n := by
      have h' : ((detectFixes w).foldl applyFixStep (w.nodes, false)).1.get? k
          = some (setTV n) := by rw [h, hget]; rfl
      rw [hn'] at h'
      simpa using h'
    rfl

/-- Every node of the final list comes from an original node, with the same
parameters and type, and with a JS-truthy `typeVersion`. -/
theorem fold_final_members (w : Workflow)
    (hnd : (w.nodes.map Node.name).Nodup)
    (hExpr : exprFixes w.nodes = []) (hWeb : webhookFixes w.nodes = []) :
    ∀ n' ∈ ((detectFixes w).foldl applyFixStep (w.nodes, false)).1,
      ∃ n, n ∈ w.nodes ∧ n'.parameters = n.parameters ∧ n'.type = n.type ∧
        jsTruthyNat n'.typeVersion = true := by
  intro n' hmem
  obtain ⟨k, hk⟩ := List.get?_of_mem hmem
  rcases foldl_applyFixStep_fst_get? (detectFixes w) (w.nodes, false) k with h | h
  · have hn : w.nodes.get? k = some n' := by rw [← h, hk]
    refine ⟨n', List.get?_mem hn, rfl, rfl, ?_⟩
    by_cases hflag : jsTruthyNat n'.typeVersion = true
    · exact hflag
    · have h2 := fold_final_flagged w k n' hnd hExpr hWeb hn
        (by simpa using hflag)
      rw [hk] at h2
      obtain heq : n' = setTV n' := by simpa using h2
      rw [heq]
      simp [setTV, jsTruthyNat]
  · have hex : ∃ n, w.nodes.get? k = some n ∧ n' = setTV n := by
      cases hw : w.nodes.get? k with
      | none =>
        have h' : ((detectFixes w).foldl applyFixStep (w.nodes, false)).1.get? k
            = (w.nodes.get? k).map setTV := h
        rw [hw, hk] at h'
        simp at h'
      | some n =>
        have h' : ((detectFixes w).foldl applyFixStep (w.nodes, false)).1.get? k
            = (w.nodes.get? k).map setTV := h
        rw [hw, hk] at h'
        exact ⟨n, rfl, by simpa using h'⟩
    obtain ⟨n, hn, rfl⟩ := hex
    exact ⟨n, List.get?_mem hn, rfl, rfl, by simp [setTV, jsTruthyNat]⟩

/-- After applying the fixes, the detectors find nothing: the repaired
graph has zero findings of any kind (idempotence of the repair). -/
theorem detectFixes_after_fold (w : Workflow)
    (hnd : (w.nodes.map Node.name).Nodup)
    (hExpr : exprFixes w.nodes = []) (hWeb : webhookFixes w.nodes = []) :
    detectFixes
      { w with nodes := ((detectFixes w).foldl applyFixStep (w.nodes, false)).1 }
      = [] := by
  have hmem := fold_final_members w hnd hExpr hWeb
  have hExprAll : ∀ a ∈ w.nodes, hasBadExpression a.parameters.raw = false := by
    intro a ha
    have h := List.filterMap_eq_nil_iff.mp hExpr a ha
    by_cases hb : hasBadExpression a.parameters.raw
    · simp [hb] at h
    · simpa using hb
  have hWebAll : ∀ a ∈ w.nodes,
      (jsIncludes a.type "Webhook" && !(jsTruthyStr a.parameters.path)) = false := by
    intro a ha
    have h := List.filterMap_eq_nil_iff.mp hWeb a ha
    by_cases hb : (jsIncludes a.type "Webhook" && !(jsTruthyStr a.parameters.path)) = true
    · simp [hb] at h
    · simpa using hb
  have h1 : exprFixes ((detectFixes w).foldl applyFixStep (w.nodes, false)).1 = [] := by
    refine List.filterMap_eq_nil_iff.mpr (fun n' hm => ?_)
    obtain ⟨n, hn, hp, _, _⟩ := hmem n' hm
    simp [hp, hExprAll n hn]
  have h2 : typeVersionFixes ((detectFixes w).foldl applyFixStep (w.nodes, false)).1 = [] := by
    refine List.filterMap_eq_nil_iff.mpr (fun n' hm => ?_)
    obtain ⟨n, hn, _, _, htv⟩ := hmem n' hm
    simp [htv]
  have h3 : webhookFixes ((detectFixes w).foldl applyFixStep (w.nodes, false)).1 = [] := by
    refine List.filterMap_eq_nil_iff.mpr (fun n' hm => ?_)
    obtain ⟨n, hn, hp, hty, _⟩ := hmem n' hm
    simp [hp, hty, hWebAll n hn]
  show exprFixes ((detectFixes w).foldl applyFixStep (w.nodes, false)).1 ++
      typeVersionFixes ((detectFixes w).foldl applyFixStep (w.nodes, false)).1 ++
      webhookFixes ((detectFixes w).foldl applyFixStep (w.nodes, false)).1 = []
  rw [h1, h2, h3]
  rfl

/-! ## Claim theorems C7 and C8 -/

/-- C7: on a graph with pairwise-distinct node names whose only detected
defects are missing `typeVersion`s, `autofix_workflow` with
`applyFixes = true` sets `typeVersion = 1` on exactly those nodes and
persists the repaired graph (one remote write); re-running autofix on the
repaired graph detects zero findings and returns `fixesApplied = 0`. -/
theorem autofix_typeVersion_idempotent (w : Workflow)
    (hnd : (w.nodes.map Node.name).Nodup)
    (hExpr : exprFixes w.nodes = [])
    (hWeb : webhookFixes w.nodes = [])
    (hTv : typeVersionFixes w.nodes ≠ []) :
    (autofixWorkflowHandler w true).2.2 = [(autofixWorkflowHandler w true).2.1] ∧
    (∀ k n, w.nodes.get? k = some n → jsTruthyNat n.typeVersion = false →
      (autofixWorkflowHandler w true).2.1.nodes.get? k = some (setTV n)) ∧
    detectFixes (autofixWorkflowHandler w true).2.1 = [] ∧
    (∀ b : Bool,
      (autofixWorkflowHandler (autofixWorkflowHandler w true).2.1 b).1.fixesApplied
        = 0) := by
  have hw2 : (autofixWorkflowHandler w true).2.1
      = { w with nodes := ((detectFixes w).foldl applyFixStep (w.nodes, false)).1 } := rfl
  have hwr : (autofixWorkflowHandler w true).2.2
      = if ((detectFixes w).foldl applyFixStep (w.nodes, false)).2
        then [{ w with nodes := ((detectFixes w).foldl applyFixStep (w.nodes, false)).1 }]
        else [] := rfl
  have hmod : ((detectFixes w).foldl applyFixStep (w.nodes, false)).2 = true := by
    obtain ⟨f0, hf0⟩ := List.exists_mem_of_ne_nil _ hTv
    obtain ⟨n, hn_mem, hfn⟩ := List.mem_filterMap.mp hf0
    by_cases hflag : jsTruthyNat n.typeVersion = true
    · simp [hflag] at hfn
    · obtain ⟨k, hk⟩ := List.get?_of_mem hn_mem
      exact (fold_sets_tv_of_flagged w k n hnd hExpr hWeb hk
        (by simpa using hflag)).2
  have hdet : detectFixes (autofixWorkflowHandler w true).2.1 = [] := by
    rw [hw2]
    exact detectFixes_after_fold w hnd hExpr hWeb
  refine ⟨?_, ?_, hdet, ?_⟩
  · rw [hwr, hmod, hw2]
    simp
  · intro k n hget hflag
    rw [hw2]
    exact fold_final_flagged w k n hnd hExpr hWeb hget hflag
  · intro b
    have hfa : (autofixWorkflowHandler (autofixWorkflowHandler w true).2.1 b).1.fixesApplied
        = if b then (detectFixes (autofixWorkflowHandler w true).2.1).length else 0 := by
      cases b <;> rfl
    rw [hfa, hdet]
    cases b <;> rfl

/-- C8: with `applyFixes = true` the reported `fixesApplied` always equals
`fixesFound`; a fix whose type is not `typeversion-missing` never mutates
anything; and a remote write occurs only if some detected fix had type
`typeversion-missing`. -/
theorem autofix_applied_equals_found (w : Workflow) :
    ((autofixWorkflowHandler w true).1.fixesApplied
      = (autofixWorkflowHandler w true).1.fixesFound) ∧
    ((autofixWorkflowHandler w true).2.2 ≠ [] →
      ∃ f ∈ (autofixWorkflowHandler w true).1.fixes,
        f.type = "typeversion-missing") ∧
    (∀ (s : List Node × Bool) (f : FixItem), f.type ≠ "typeversion-missing" →
      applyFixStep s f = s) := by
  refine ⟨rfl, ?_, fun s f h => applyFixStep_non_tv s f h⟩
  intro hw
  have hfixes : (autofixWorkflowHandler w true).1.fixes = detectFixes w := rfl
  have hwr : (autofixWorkflowHandler w true).2.2
      = if ((detectFixes w).foldl applyFixStep (w.nodes, false)).2
        then [{ w with nodes := ((detectFixes w).foldl applyFixStep (w.nodes, false)).1 }]
        else [] := rfl
  rw [hwr] at hw
  by_cases hmod : ((detectFixes w).foldl applyFixStep (w.nodes, false)).2 = true
  · rcases foldl_applyFixStep_snd_tv (detectFixes w) (w.nodes, false) hmod with h | h
    · simp at h
    · rw [hfixes]
      exact h
  · rw [if_neg (by simpa using hmod)] at hw
    exact absurd rfl hw

/-- C7 (witness): the idempotence theorem at a concrete two-node graph
whose second node misses its `typeVersion`. -/
theorem autofix_typeVersion_idempotent_witness :
    (autofixWorkflowHandler c7Graph true).2.2
      = [(autofixWorkflowHandler c7Graph true).2.1] ∧
    (autofixWorkflowHandler c7Graph true).2.1.nodes.get? 1 = some (setTV noTvNode) ∧
    detectFixes (autofixWorkflowHandler c7Graph true).2.1 = [] ∧
    (autofixWorkflowHandler (autofixWorkflowHandler c7Graph true).2.1 true).1.fixesApplied
      = 0 := by
  have H := autofix_typeVersion_idempotent c7Graph (by decide) (by decide)
    (by decide) (by decide)
  exact ⟨H.1, H.2.1 1 noTvNode rfl rfl, H.2.2.1, H.2.2.2 true⟩

/-- C8 (witness): the found/applied agreement at a concrete graph with one
missing-typeVersion finding, plus the no-op behaviour of a non-typeVersion
fix. -/
theorem autofix_applied_equals_found_witness :
    ((autofixWorkflowHandler c8Graph true).1.fixesApplied
      = (autofixWorkflowHandler c8Graph true).1.fixesFound) ∧
    (∃ f ∈ (autofixWorkflowHandler c8Graph true).1.fixes,
      f.type = "typeversion-missing") ∧
    applyFixStep ([], false) exprFixItem = ([], false) := by
  have H := autofix_applied_equals_found c8Graph
  exact ⟨H.1, H.2.1 (by decide), H.2.2 ([], false) exprFixItem (by decide)⟩
